import Mathlib

/-!
# Verification of the JSK payments application core

A shallow embedding, in Lean 4, of the reconciliation and charge-calculation
core of the `jsk-payments-app` repository (`payments_import.py`, `charges.py`),
together with theorems settling the frozen claims about its specification.

Conventions of the embedding:
* Python strings are Lean `String`s / `List Char`; the matchers of
  `detect_apartment` hand-implement the exact regular expressions of the
  source (`re.search` = leftmost match, greedy quantifiers).
* Python `float` amounts are modelled as exact rationals `ℚ`; `round(x, 2)`
  is modelled as round-half-to-even at two decimals (Python's rounding rule).
* `datetime.date` values are modelled as integers ordered like dates
  (e.g. `yyyymmdd` encoding); only ordering and equality are used.
* The SQLAlchemy session is replaced by explicit data: the apartment registry
  and tariff table are list parameters, the stored `charges` table is a list
  threaded through `generate_charges`.
-/

/-! ## Character utilities (Python `str.lower`, `\s`, `[0-9]`) -/

/-- Python whitespace class `\s` restricted to the characters that can occur
in statement cells: space, tab, LF, VT, FF, CR and the non-breaking space. -/
def isSpaceB (c : Char) : Bool :=
  c.toNat == 32 || c.toNat == 9 || c.toNat == 10 || c.toNat == 11 ||
  c.toNat == 12 || c.toNat == 13 || c.toNat == 160

/-- The regex class `[0-9]` (ASCII digits only, as in Python `re`). -/
def isDigitB (c : Char) : Bool :=
  48 ≤ c.toNat && c.toNat ≤ 57

/-- Python `str.lower()` restricted to the alphabets this data uses:
ASCII `A`–`Z` and Cyrillic `А`–`Я`, `Ё`; all other characters are fixed. -/
def pyLowerChar (c : Char) : Char :=
  if 65 ≤ c.toNat ∧ c.toNat ≤ 90 then Char.ofNat (c.toNat + 32)
  else if 1040 ≤ c.toNat ∧ c.toNat ≤ 1071 then Char.ofNat (c.toNat + 32)
  else if c.toNat = 1025 then Char.ofNat 1105
  else c

/-- `int(...)` of a captured digit group. -/
def digitsToNat (ds : List Char) : Nat :=
  ds.foldl (fun a c => a * 10 + (c.toNat - 48)) 0

/-- Python substring containment `needle in hay`. -/
def hasSub (hay needle : List Char) : Bool :=
  match hay with
  | [] => needle.isEmpty
  | c :: t => needle.isPrefixOf (c :: t) || hasSub t needle

/-- Python `str.strip()`: drop leading and trailing whitespace. -/
def pyStrip (l : List Char) : List Char :=
  ((l.dropWhile isSpaceB).reverse.dropWhile isSpaceB).reverse

/-- `str.lower()` over a whole string, as a list of characters. -/
def pyLower (l : List Char) : List Char :=
  l.map pyLowerChar

/-! ## The apartment extractor (`detect_apartment`, payments_import.py 151-190)

Each regular expression of the source is embedded as a matcher that attempts
the pattern anchored at the head of a list; `searchPat` scans positions left
to right, which is exactly `re.search`'s leftmost-match rule. -/

/-- One attempt of `кв[.\s]*([0-9]{1,3})` (sender tier, class without hyphen)
or `кв[.\s-]*([0-9]{1,3})` (description tier, class `cls` with hyphen),
anchored at the head of the list.  The captured group is greedy: the first
up-to-three digits. -/
def kvMatchAt (cls : Char → Bool) : List Char → Option Nat
  | c1 :: c2 :: rest =>
    if c1 = 'к' ∧ c2 = 'в' then
      let after := rest.dropWhile cls
      let ds := (after.takeWhile isDigitB).take 3
      if ds = [] then none else some (digitsToNat ds)
    else none
  | _ => none

/-- One attempt of `;\s*0*([0-9]{1,3})\s*$` anchored at the head: a semicolon,
optional whitespace, then the whole remaining digit run must reach the
(whitespace-padded) end of the string; the greedy `0*` swallows the leading
zeros, leaving a 1–3 digit capture (all-zero runs capture the last `0`). -/
def semiMatchAt : List Char → Option Nat
  | c :: rest =>
    if c = ';' then
      let r1 := rest.dropWhile isSpaceB
      let ds := r1.takeWhile isDigitB
      let r2 := r1.dropWhile isDigitB
      if ds ≠ [] ∧ r2.all isSpaceB then
        let dr := ds.dropWhile (fun d => d = '0')
        if dr = [] then some 0
        else if dr.length ≤ 3 then some (digitsToNat dr)
        else none
      else none
    else none
  | [] => none

/-- One attempt of `квартира\s*([0-9]{1,3})` anchored at the head. -/
def kvartiraMatchAt (l : List Char) : Option Nat :=
  if "квартира".data.isPrefixOf l then
    let rest := l.drop 8
    let after := rest.dropWhile isSpaceB
    let ds := (after.takeWhile isDigitB).take 3
    if ds = [] then none else some (digitsToNat ds)
  else none

/-- `re.search`: try the anchored matcher at each position, left to right. -/
def searchPat (matchAt : List Char → Option Nat) : List Char → Option Nat
  | [] => none
  | c :: rest =>
    match matchAt (c :: rest) with
    | some n => some n
    | none => searchPat matchAt rest

/-- The character class `[.\s]` of the sender-tier pattern. -/
def clsKvSender (c : Char) : Bool := c == '.' || isSpaceB c

/-- The character class `[.\s-]` of the description-tier pattern. -/
def clsKvDesc (c : Char) : Bool := c == '.' || isSpaceB c || c == '-'

/-- Configured constant `HOME_STREET` of `detect_apartment`. -/
def HOME_STREET : List Char := "болотниковская".data

/-- Configured constant `HOME_HOUSE` of `detect_apartment`. -/
def HOME_HOUSE : List Char := "д 38".data

/-- Configured constant `HOME_KORP` of `detect_apartment`. -/
def HOME_KORP : List Char := "корп 6".data

/-- `detect_apartment(description, sender_info)` (payments_import.py 151-190):
tier 1 matches the sender block against the cooperative's address tokens and
extracts `кв[.\s]*digits`; tier 2 falls back to the payment description with
the trailing `;digits` account code, then `кв[.\s-]*digits`, then
`квартира\s*digits`. -/
def detect_apartment (description : String) (sender_info : Option String) :
    Option Nat :=
  let tier1 : Option Nat :=
    match sender_info with
    | some si =>
      if si.data ≠ [] then
        let text := pyLower si.data
        if hasSub text HOME_STREET && hasSub text HOME_HOUSE &&
            hasSub text HOME_KORP then
          searchPat (kvMatchAt clsKvSender) text
        else none
      else none
    | none => none
  match tier1 with
  | some n => some n
  | none =>
    if description.data = [] then none
    else
      let desc := pyStrip (pyLower description.data)
      match searchPat semiMatchAt desc with
      | some n => some n
      | none =>
        match searchPat (kvMatchAt clsKvDesc) desc with
        | some n => some n
        | none => searchPat kvartiraMatchAt desc

/-! ## Data model of payments_import.py -/

/-- The `Apartment` ORM model (payments_import.py 20-24).  Note: these three
columns are *all* the attributes the model defines. -/
structure Apartment where
  id : Nat
  number : Nat
  owner_name : Option String
deriving DecidableEq, Repr

/-- The column names defined on the `Apartment` model (payments_import.py
20-24): `id`, `number`, `owner_name` and nothing else. -/
def apartmentModelColumns : List String := ["id", "number", "owner_name"]

/-- The attribute names `calculate_charges_for_apartment` (charges.py 95-190)
reads from its apartment argument: `apt.area`, `apt.radio`, `apt.antenna`,
`apt.intercom`, `apt.id`, `apt.number`. -/
def chargeCalculatorApartmentReads : List String :=
  ["area", "radio", "antenna", "intercom", "id", "number"]

/-- The `ParsedPayment` dataclass (payments_import.py 49-56). -/
structure ParsedPayment where
  date : Int
  amount : ℚ
  description : String
  sender_info : Option String
  guessed_apartment_number : Option Nat := none
  apartment_id : Option Nat := none
deriving DecidableEq, Repr

/-! ## The reconciliation matcher (`attach_apartment_ids`, 216-233) -/

/-- The dict comprehension \x7ba.number: a.id for a in apartments\x7d: a later
entry with the same key overwrites an earlier one. -/
def buildMapping (apartments : List Apartment) : Nat → Option Nat :=
  apartments.foldl
    (fun m a => fun n => if n = a.number then some a.id else m n)
    (fun _ => none)

/-- The loop body of `attach_apartment_ids`: route one payment to the matched
or the unmatched accumulator, setting `apartment_id` on a match. -/
def attachStep (mapping : Nat → Option Nat)
    (mu : List ParsedPayment × List ParsedPayment) (p : ParsedPayment) :
    List ParsedPayment × List ParsedPayment :=
  match p.guessed_apartment_number with
  | some n =>
    match mapping n with
    | some i => (mu.1 ++ [{ p with apartment_id := some i }], mu.2)
    | none => (mu.1, mu.2 ++ [p])
  | none => (mu.1, mu.2 ++ [p])

/-- `attach_apartment_ids(payments, session)` (payments_import.py 216-233):
the apartment registry query is the explicit `apartments` parameter. -/
def attach_apartment_ids (payments : List ParsedPayment)
    (apartments : List Apartment) :
    List ParsedPayment × List ParsedPayment :=
  let mapping := buildMapping apartments
  payments.foldl (attachStep mapping) ([], [])

/-! ## The spreadsheet normalizer (`read_sber_statement_excel`, 99-144) -/

/-- `normalize` (payments_import.py 63-67): non-breaking spaces to spaces,
strip, lower.  (The non-`str` branch returning `""` is dropped: the sheet's
column labels are modelled as strings.) -/
def normalizeLabel (name : String) : String :=
  ⟨pyLower (pyStrip (name.data.map
    (fun c => if c.toNat = 160 then ' ' else c)))⟩

/-- A `pandas.DataFrame` as read with `dtype=str`: ordered column labels and
rows mapping a column label to an optional (possibly NaN) cell string. -/
structure DF where
  cols : List String
  rows : List (String → Option String)

/-- `find_column(df, candidates)` (payments_import.py 70-76): the first
column whose normalized label is one of the lowered candidates. -/
def find_column (df : DF) (candidates : List String) : Option String :=
  df.cols.find? (fun col =>
    candidates.any (fun c => normalizeLabel col == ⟨pyLower c.data⟩))

/-- The keyword list of `detect_sender_column` (payments_import.py 84). -/
def senderKeywords : List (List Char) :=
  ["сбербанк".data, "//".data, "россия".data, "ул".data, "кв".data,
   "корп".data]

/-- `detect_sender_column(df)` (payments_import.py 79-92): the first column
whose first ten non-null values contain at least one keyword hit. -/
def detect_sender_column (df : DF) : Option String :=
  df.cols.find? (fun col =>
    (((df.rows.filterMap (fun r => r col)).take 10).any
      (fun v => senderKeywords.any (fun kw => hasSub (pyLower v.data) kw))))

/-- One canonical output row of the normalizer. -/
structure OutRow where
  date : Int
  amount : ℚ
  description : String
  sender_info : Option String
deriving DecidableEq, Repr

/-- The amount-cell cleanup of payments_import.py 124-129: drop spaces,
comma decimal separator to dot. -/
def cleanAmount (s : String) : String :=
  ⟨(s.data.filter (fun c => c ≠ ' ')).map
    (fun c => if c = ',' then '.' else c)⟩

/-- The error message of payments_import.py 113-116 (`None` for a column
that could not be located, as Python's f-string renders it). -/
def showCol : Option String → String
  | some s => s
  | none => "None"

/-- The f-string of payments_import.py 113-116: the schema-failure
message, naming the date, amount and description fields with the located
column label or `None`. -/
def errMsgSchema (cd ca cdesc : Option String) : String :=
  "Не удалось обнаружить обязательные колонки: date=" ++ showCol cd ++
    ", amount=" ++ showCol ca ++ ", descr=" ++ showCol cdesc

/-- `.astype(str)` on one cell: a NaN cell becomes the string `"nan"`. -/
def astypeStr : Option String → String
  | some s => s
  | none => "nan"

/-- `read_sber_statement_excel` (payments_import.py 99-144).  The pandas
coercions `pd.to_datetime(..., errors="coerce")` and
`pd.to_numeric(..., errors="coerce")` are modelled by the parameters
`parseDate` and `parseNum` (`none` = NaT/NaN); rows where either coercion
fails are dropped (`dropna(subset=["date", "amount"])`).  A missing required
column raises, modelled as `Except.error` — no rows are produced. -/
def read_sber_statement_excel (parseDate : String → Option Int)
    (parseNum : String → Option ℚ) (df : DF) :
    Except String (List OutRow) :=
  let col_date := find_column df ["дата проводки"]
  let col_descr := find_column df ["назначение платежа"]
  let col_amount0 := find_column df ["сумма"]
  let col_credit := find_column df ["сумма по кредиту"]
  let col_amount :=
    match col_amount0 with
    | some c => some c
    | none => col_credit
  if col_date = none ∨ col_descr = none ∨ col_amount = none then
    Except.error (errMsgSchema col_date col_amount col_descr)
  else
    let sender_col := detect_sender_column df
    Except.ok (df.rows.filterMap (fun r =>
      match (r (showCol col_date)).bind parseDate,
          ((r (showCol col_amount)).map cleanAmount).bind parseNum with
      | some d, some a =>
        some { date := d, amount := a,
               description := astypeStr (r (showCol col_descr)),
               sender_info := sender_col.map (fun sc => astypeStr (r sc)) }
      | _, _ => none))

/-! ## Data model of charges.py -/

/-- The `TariffItem` ORM model (charges.py 20-37): a versioned tariff row. -/
structure TariffItem where
  id : Nat
  code : String
  name : String
  type : String
  value : ℚ
  valid_from : Int
deriving DecidableEq, Repr

/-- One `ChargeRow` (charges.py 61-68). -/
structure ChargeRow where
  apartment_id : Nat
  apartment_number : Nat
  period : Int
  item_code : String
  item_name : String
  amount : ℚ
deriving DecidableEq, Repr

/-- One stored row of the `charges` table (charges.py 40-54; the surrogate
`id` and `created_at` timestamp are immaterial to the claims). -/
structure Charge where
  apartment_id : Nat
  period : Int
  item_code : String
  item_name : String
  amount : ℚ
deriving DecidableEq, Repr

/-- The duck-typed apartment object `calculate_charges_for_apartment` reads
(charges.py 95-190 accesses `id`, `number`, `area`, `radio`, `antenna`,
`intercom`).  The ORM `Apartment` model lacks the four billing fields — see
`apartmentModelColumns` — so this structure records the *interface the
calculator requires*, per its attribute accesses and the registry read
interface of the spec. -/
structure BillingApartment where
  id : Nat
  number : Nat
  area : ℚ
  radio : ℚ
  antenna : ℚ
  intercom : ℚ
deriving DecidableEq, Repr

/-- `month_start(year, month)` = `date(year, month, 1)`, in the `yyyymmdd`
integer encoding of dates. -/
def month_start (year month : Int) : Int :=
  year * 10000 + month * 100 + 1

/-- Python `round(x, 2)`: round half to even at two decimal places. -/
def roundHalfEven (x : ℚ) : ℤ :=
  let f := x.floor
  if x - f < 1 / 2 then f
  else if 1 / 2 < x - f then f + 1
  else if f % 2 = 0 then f else f + 1

/-- `round(amount, 2)` on an exact rational amount. -/
def round2 (x : ℚ) : ℚ :=
  (roundHalfEven (x * 100) : ℚ) / 100

/-! ## The tariff resolver (`get_active_tariffs`, charges.py 75-88) -/

/-- The loop body of `get_active_tariffs` for one tariff row `t`: update the
accumulated dict at key `t.code` when `t.valid_from <= period` and `t` is
strictly fresher than the previous entry (or there is none). -/
def tariffUpd (period : Int) (result : String → Option TariffItem)
    (t : TariffItem) : String → Option TariffItem :=
  if t.valid_from ≤ period then
    match result t.code with
    | none => fun c => if c = t.code then some t else result c
    | some prev =>
      if prev.valid_from < t.valid_from then
        fun c => if c = t.code then some t else result c
      else result
  else result

/-- `get_active_tariffs(session, period)` (charges.py 75-88): the freshest
tariff per code with `valid_from <= period`, as a dict modelled by a
function; the `session.query(TariffItem).all()` result is the explicit
`items` parameter, in iteration order. -/
def get_active_tariffs (items : List TariffItem) (period : Int) :
    String → Option TariffItem :=
  items.foldl (tariffUpd period) (fun _ => none)

/-! ## The charge calculator (`calculate_charges_for_apartment`, 95-190)

The Python function appends rows and accumulates `total_before_percent`
sequentially; each numbered block of the source is one `*Part` definition
returning (rows emitted, unrounded contribution to the running subtotal),
and the function concatenates the parts and feeds the accumulated total to
the bank-percent block. -/

/-- Block 1 (charges.py 107-119): `target_fee`, emitted if the tariff exists
and `apt.area` is truthy; amount `area * value`, rounded at emission, the
unrounded amount accumulated. -/
def targetPart (apt : BillingApartment) (period : Int)
    (tariffs : String → Option TariffItem) : List ChargeRow × ℚ :=
  match tariffs "target_fee" with
  | some t =>
    if apt.area ≠ 0 then
      ([{ apartment_id := apt.id, apartment_number := apt.number,
          period := period, item_code := "target_fee", item_name := t.name,
          amount := round2 (apt.area * t.value) }], apt.area * t.value)
    else ([], 0)
  | none => ([], 0)

/-- Block 2 (charges.py 124-137): `radio`, emitted if the tariff exists and
the apartment's radio coefficient is truthy; amount `value * coeff`. -/
def radioPart (apt : BillingApartment) (period : Int)
    (tariffs : String → Option TariffItem) : List ChargeRow × ℚ :=
  match tariffs "radio" with
  | some t =>
    if apt.radio ≠ 0 then
      ([{ apartment_id := apt.id, apartment_number := apt.number,
          period := period, item_code := "radio", item_name := t.name,
          amount := round2 (t.value * apt.radio) }], t.value * apt.radio)
    else ([], 0)
  | none => ([], 0)

/-- Block 3 (charges.py 142-155): `antenna`, same shape as `radio`. -/
def antennaPart (apt : BillingApartment) (period : Int)
    (tariffs : String → Option TariffItem) : List ChargeRow × ℚ :=
  match tariffs "antenna" with
  | some t =>
    if apt.antenna ≠ 0 then
      ([{ apartment_id := apt.id, apartment_number := apt.number,
          period := period, item_code := "antenna", item_name := t.name,
          amount := round2 (t.value * apt.antenna) }], t.value * apt.antenna)
    else ([], 0)
  | none => ([], 0)

/-- Block 4 (charges.py 160-171): `intercom`, the flat stored amount,
emitted if `apt.intercom` is truthy and positive. -/
def intercomPart (apt : BillingApartment) (period : Int) :
    List ChargeRow × ℚ :=
  if apt.intercom ≠ 0 ∧ 0 < apt.intercom then
    ([{ apartment_id := apt.id, apartment_number := apt.number,
        period := period, item_code := "intercom", item_name := "Домофон",
        amount := round2 apt.intercom }], apt.intercom)
  else ([], 0)

/-- Block 5 (charges.py 176-188): `bank_percent` on the running subtotal
`total`, emitted if the tariff exists and the subtotal is strictly
positive. -/
def bankPart (apt : BillingApartment) (period : Int)
    (tariffs : String → Option TariffItem) (total : ℚ) : List ChargeRow :=
  match tariffs "bank_percent" with
  | some t =>
    if 0 < total then
      [{ apartment_id := apt.id, apartment_number := apt.number,
         period := period, item_code := "bank_percent", item_name := t.name,
         amount := round2 (total * (t.value / 100)) }]
    else []
  | none => []

/-- `calculate_charges_for_apartment(apt, period, tariffs)`
(charges.py 95-190). -/
def calculate_charges_for_apartment (apt : BillingApartment) (period : Int)
    (tariffs : String → Option TariffItem) : List ChargeRow :=
  let p1 := targetPart apt period tariffs
  let p2 := radioPart apt period tariffs
  let p3 := antennaPart apt period tariffs
  let p4 := intercomPart apt period
  let total_before_percent := p1.2 + p2.2 + p3.2 + p4.2
  p1.1 ++ p2.1 ++ p3.1 ++ p4.1 ++
    bankPart apt period tariffs total_before_percent

/-! ## Charge generation with persistence (`generate_charges`, 197-231) -/

/-- `generate_charges(session, year, month, save_to_db)` (charges.py
197-231).  The database is explicit: `db` is the stored `charges` table,
`items` the tariff table, `apartments` the registry query result (ascending
`number` order).  Returns the new table state and the computed rows; with
`save` set, rows of the target period are deleted and the fresh rows
inserted. -/
def generate_charges (db : List Charge) (items : List TariffItem)
    (apartments : List BillingApartment) (year month : Int)
    (save : Bool := true) : List Charge × List ChargeRow :=
  let period := month_start year month
  let tariffs := get_active_tariffs items period
  let all_rows :=
    (apartments.map
      (fun apt => calculate_charges_for_apartment apt period tariffs)).flatten
  let db2 :=
    if save then
      db.filter (fun c => !(c.period == period)) ++
        all_rows.map (fun r =>
          { apartment_id := r.apartment_id, period := r.period,
            item_code := r.item_code, item_name := r.item_name,
            amount := r.amount })
    else db
  (db2, all_rows)

/-! ## Spec-side definitions (for refinement-style claims) -/

/-- Modelled from the spec (§4.6): the running pre-surcharge subtotal — the
sum of the unrounded `target_fee`, `radio`, `antenna` and `intercom`
amounts, each contributing under its emission condition. -/
def presurchargeSubtotal (apt : BillingApartment)
    (tariffs : String → Option TariffItem) : ℚ :=
  (match tariffs "target_fee" with
   | some t => if apt.area ≠ 0 then apt.area * t.value else 0
   | none => 0) +
  (match tariffs "radio" with
   | some t => if apt.radio ≠ 0 then t.value * apt.radio else 0
   | none => 0) +
  (match tariffs "antenna" with
   | some t => if apt.antenna ≠ 0 then t.value * apt.antenna else 0
   | none => 0) +
  (if apt.intercom ≠ 0 ∧ 0 < apt.intercom then apt.intercom else 0)

/-! ## Concrete fixtures for the scenario claims -/

/-- The tariff table of the §8 scenario: `target_fee` 30 per m², `radio` 60
fixed, `bank_percent` 1.5 %, all valid from 2025-01-01. -/
def scenarioTariffItems : List TariffItem :=
  [{ id := 1, code := "target_fee", name := "Целевой взнос",
     type := "per_m2", value := 30, valid_from := 20250101 },
   { id := 2, code := "radio", name := "Радио", type := "fixed",
     value := 60, valid_from := 20250101 },
   { id := 3, code := "bank_percent", name := "Банковский процент",
     type := "percent", value := 1.5, valid_from := 20250101 }]

/-- Apartment 12 of the §8 scenario: area 54 m², radio 1, antenna 0,
intercom 150. -/
def apt12 : BillingApartment :=
  { id := 1, number := 12, area := 54, radio := 1, antenna := 0,
    intercom := 150 }

/-- What one `get_active_tariffs` loop iteration does to the entry of the
current row's own code: keep the better of the current entry and `t`
("better" = qualifying and strictly fresher; ties keep the current entry). -/
def pickBetter (period : Int) (cur : Option TariffItem) (t : TariffItem) :
    Option TariffItem :=
  if t.valid_from ≤ period then
    match cur with
    | none => some t
    | some prev =>
      if prev.valid_from < t.valid_from then some t else some prev
  else cur

/-- Tie fixture: two `target_fee` versions sharing `valid_from`. -/
def tieT1 : TariffItem :=
  { id := 1, code := "target_fee", name := "Целевой взнос",
    type := "per_m2", value := 30, valid_from := 20240101 }

/-- Tie fixture: the later-iterated duplicate of `tieT1`'s code/date. -/
def tieT2 : TariffItem :=
  { id := 2, code := "target_fee", name := "Целевой взнос (дубль)",
    type := "per_m2", value := 35, valid_from := 20240101 }

/-! ## Spec-side definitions for the reconciliation matcher -/

/-- A payment is matched iff its guessed number is a key of the registry
dict (`p.guessed_apartment_number in mapping`; `None` is never a key). -/
def isMatchedB (mapping : Nat → Option Nat) (p : ParsedPayment) : Bool :=
  match p.guessed_apartment_number with
  | some n => (mapping n).isSome
  | none => false

/-- The record a matched payment becomes: the registry id written into
`apartment_id`. -/
def matchedTransform (mapping : Nat → Option Nat) (p : ParsedPayment) :
    Option ParsedPayment :=
  match p.guessed_apartment_number with
  | some n => (mapping n).map (fun i => { p with apartment_id := some i })
  | none => none

/-! # Theorems -/

/-- Round-half-even of an integer is that integer. -/
theorem roundHalfEven_intCast (k : ℤ) : roundHalfEven (k : ℚ) = k := by
  unfold roundHalfEven
  rw [Rat.floor_def']
  simp

/-- Evaluation rule for `round2` at an exact two-decimal value. -/
theorem round2_eq_of_mul_hundred (x : ℚ) (k : ℤ) (h : x * 100 = (k : ℚ)) :
    round2 x = (k : ℚ) / 100 := by
  unfold round2
  rw [h, roundHalfEven_intCast]

/-! ## Characterization of the tariff resolver -/

theorem tariffUpd_apply (period : Int) (r : String → Option TariffItem)
    (t : TariffItem) (c : String) :
    tariffUpd period r t c =
      if c = t.code then pickBetter period (r c) t else r c := by
  by_cases hle : t.valid_from ≤ period
  · simp only [tariffUpd, pickBetter, if_pos hle]
    cases hr : r t.code with
    | none =>
      by_cases hc : c = t.code
      · subst hc; simp [hr]
      · simp [hc]
    | some prev =>
      by_cases hlt : prev.valid_from < t.valid_from
      · by_cases hc : c = t.code
        · subst hc; simp [hr, hlt]
        · simp [hc, hlt]
      · by_cases hc : c = t.code
        · subst hc; simp [hr, hlt]
        · simp [hc, hlt]
  · simp only [tariffUpd, pickBetter, if_neg hle, ite_self]

theorem get_active_foldl_pick (period : Int) :
    ∀ (items : List TariffItem) (r : String → Option TariffItem)
      (c : String),
      items.foldl (tariffUpd period) r c =
        (items.filter (fun t => t.code == c)).foldl (pickBetter period)
          (r c) := by
  intro items
  induction items with
  | nil => intro r c; rfl
  | cons t items ih =>
    intro r c
    rw [List.foldl_cons, ih]
    by_cases hc : t.code = c
    · have : (List.filter (fun t => t.code == c) (t :: items)) =
        t :: List.filter (fun t => t.code == c) items := by
        simp [List.filter_cons, hc]
      rw [this, List.foldl_cons, tariffUpd_apply]
      simp [hc.symm]
    · have : (List.filter (fun t => t.code == c) (t :: items)) =
        List.filter (fun t => t.code == c) items := by
        simp [List.filter_cons, hc]
      rw [this, tariffUpd_apply]
      have hc' : ¬ c = t.code := fun h => hc h.symm
      simp [hc']

theorem pickBetter_foldl_none_iff (period : Int) :
    ∀ (l : List TariffItem) (cur : Option TariffItem),
      l.foldl (pickBetter period) cur = none ↔
        cur = none ∧ ∀ t ∈ l, ¬ t.valid_from ≤ period := by
  intro l
  induction l with
  | nil => simp
  | cons t l ih =>
    intro cur
    rw [List.foldl_cons, ih]
    constructor
    · rintro ⟨h1, h2⟩
      by_cases hle : t.valid_from ≤ period
      · exfalso
        cases cur with
        | none => simp [pickBetter, hle] at h1
        | some prev =>
          simp only [pickBetter, if_pos hle] at h1
          by_cases hlt : prev.valid_from < t.valid_from <;> simp [hlt] at h1
      · refine ⟨by simpa [pickBetter, hle] using h1, ?_⟩
        intro u hu
        cases hu with
        | head => exact hle
        | tail _ hu => exact h2 u hu
    · rintro ⟨h1, h2⟩
      subst h1
      have hle : ¬ t.valid_from ≤ period := h2 t (List.mem_cons_self t l)
      refine ⟨by simp [pickBetter, hle], ?_⟩
      intro u hu
      exact h2 u (List.mem_cons_of_mem t hu)

theorem pickBetter_foldl_mem (period : Int) :
    ∀ (l : List TariffItem) (cur : Option TariffItem) (t : TariffItem),
      l.foldl (pickBetter period) cur = some t →
        (t ∈ l ∧ t.valid_from ≤ period) ∨ cur = some t := by
  intro l
  induction l with
  | nil => intro cur t h; exact Or.inr h
  | cons v l ih =>
    intro cur t h
    rw [List.foldl_cons] at h
    rcases ih (pickBetter period cur v) t h with ⟨hm, hq⟩ | hc
    · exact Or.inl ⟨List.mem_cons_of_mem v hm, hq⟩
    · by_cases hle : v.valid_from ≤ period
      · cases cur with
        | none =>
          simp only [pickBetter, if_pos hle] at hc
          cases hc
          exact Or.inl ⟨List.mem_cons_self v l, hle⟩
        | some prev =>
          simp only [pickBetter, if_pos hle] at hc
          by_cases hlt : prev.valid_from < v.valid_from
          · rw [if_pos hlt] at hc
            cases hc
            exact Or.inl ⟨List.mem_cons_self v l, hle⟩
          · rw [if_neg hlt] at hc
            exact Or.inr hc
      · simp only [pickBetter, if_neg hle] at hc
        exact Or.inr hc

theorem pickBetter_dominates_cur (period : Int) :
    ∀ (l : List TariffItem) (w t : TariffItem),
      l.foldl (pickBetter period) (some w) = some t →
        w.valid_from ≤ t.valid_from := by
  intro l
  induction l with
  | nil =>
    intro w t h
    cases h; exact le_refl _
  | cons v l ih =>
    intro w t h
    rw [List.foldl_cons] at h
    by_cases hle : v.valid_from ≤ period
    · simp only [pickBetter, if_pos hle] at h
      by_cases hlt : w.valid_from < v.valid_from
      · rw [if_pos hlt] at h
        exact le_trans (le_of_lt hlt) (ih v t h)
      · rw [if_neg hlt] at h
        exact ih w t h
    · simp only [pickBetter, if_neg hle] at h
      exact ih w t h

theorem pickBetter_foldl_max (period : Int) :
    ∀ (l : List TariffItem) (cur : Option TariffItem) (t : TariffItem),
      l.foldl (pickBetter period) cur = some t →
        ∀ u ∈ l, u.valid_from ≤ period → u.valid_from ≤ t.valid_from := by
  intro l
  induction l with
  | nil => intro cur t _ u hu; cases hu
  | cons v l ih =>
    intro cur t h u hu hq
    rw [List.foldl_cons] at h
    cases hu with
    | head =>
      have hw : ∃ w, pickBetter period cur v = some w ∧
          v.valid_from ≤ w.valid_from := by
        cases cur with
        | none => exact ⟨v, by simp [pickBetter, hq], le_refl _⟩
        | some prev =>
          by_cases hlt : prev.valid_from < v.valid_from
          · exact ⟨v, by simp [pickBetter, hq, hlt], le_refl _⟩
          · exact ⟨prev, by simp [pickBetter, hq, hlt],
              le_of_not_lt hlt⟩
      rcases hw with ⟨w, hw1, hw2⟩
      rw [hw1] at h
      exact le_trans hw2 (pickBetter_dominates_cur period l w t h)
    | tail _ hu => exact ih (pickBetter period cur v) t h u hu hq

/-! ## Claim C1: tie-break between versions sharing one `valid_from` -/

/-- **C1 counterexample.**  The claim says the resolver favors the
*later-iterated* of two rows sharing a `valid_from`; on the fixture the
resolver keeps the *first* row `tieT1`, which differs from `tieT2`. -/
theorem c1_counterexample :
    get_active_tariffs [tieT1, tieT2] 20240101 "target_fee" = some tieT1 ∧
      tieT1 ≠ tieT2 := by
  constructor
  · rfl
  · intro h
    exact absurd (congrArg TariffItem.id h) (by decide)

/-- **C1 (amended).**  When two tariff versions of the same code share the
same `valid_from` (≤ period), `get_active_tariffs` deterministically keeps
the *earlier-iterated* of the two rows: the strict `prev.valid_from <
t.valid_from` comparison never replaces an entry on a tie. -/
theorem c1_tie_break_earlier_row (t1 t2 : TariffItem) (period : Int)
    (hcode : t2.code = t1.code) (hvf : t2.valid_from = t1.valid_from)
    (hle : t1.valid_from ≤ period) :
    get_active_tariffs [t1, t2] period t1.code = some t1 := by
  simp [get_active_tariffs, tariffUpd_apply, pickBetter, hcode, hvf, hle,
    lt_irrefl]

/-- Witness for C1 (amended) at the tie fixture. -/
theorem c1_tie_break_earlier_row_witness :
    get_active_tariffs [tieT1, tieT2] 20240101 "target_fee" =
      some tieT1 :=
  c1_tie_break_earlier_row tieT1 tieT2 20240101 rfl rfl (by decide)

/-! ## Claim C4: the tariff resolver contract -/

/-- Skipping rule: rows with `valid_from > period` never change the fold. -/
theorem pickBetter_foldl_filter_qualifying (period : Int) :
    ∀ (l : List TariffItem) (cur : Option TariffItem),
      (l.filter (fun t => decide (t.valid_from ≤ period))).foldl
          (pickBetter period) cur =
        l.foldl (pickBetter period) cur := by
  intro l
  induction l with
  | nil => intro cur; rfl
  | cons t l ih =>
    intro cur
    by_cases hle : t.valid_from ≤ period
    · rw [List.filter_cons, if_pos (by simpa using hle),
        List.foldl_cons, List.foldl_cons, ih]
    · rw [List.filter_cons, if_neg (by simpa using hle),
        List.foldl_cons]
      have hskip : pickBetter period cur t = cur := by
        simp [pickBetter, hle]
      rw [hskip]
      exact ih cur

/-- **C4.**  The resolver's contract: a resolved code maps to a version of
that code from the table with `valid_from ≤ period` that is latest among
the qualifying versions; a code resolves to nothing iff it has no
qualifying version (absence, not an error); and versions with
`valid_from > period` are ignored entirely (filtering them away does not
change the result). -/
theorem c4_tariff_resolver_contract (items : List TariffItem)
    (period : Int) (code : String) :
    (∀ t, get_active_tariffs items period code = some t →
        t ∈ items ∧ t.code = code ∧ t.valid_from ≤ period ∧
          ∀ u ∈ items, u.code = code → u.valid_from ≤ period →
            u.valid_from ≤ t.valid_from) ∧
    (get_active_tariffs items period code = none ↔
        ∀ u ∈ items, u.code = code → ¬ u.valid_from ≤ period) ∧
    get_active_tariffs items period code =
      get_active_tariffs
        (items.filter (fun t => decide (t.valid_from ≤ period)))
        period code := by
  have hchar := get_active_foldl_pick period items (fun _ => none) code
  refine ⟨?_, ?_, ?_⟩
  · intro t ht
    rw [get_active_tariffs, hchar] at ht
    rcases pickBetter_foldl_mem period _ none t ht with ⟨hm, hq⟩ | hc
    · rw [List.mem_filter] at hm
      refine ⟨hm.1, by simpa using hm.2, hq, ?_⟩
      intro u hu hcode hq'
      exact pickBetter_foldl_max period _ none t ht u
        (List.mem_filter.mpr ⟨hu, by simp [hcode]⟩) hq'
    · cases hc
  · rw [get_active_tariffs, hchar, pickBetter_foldl_none_iff]
    constructor
    · rintro ⟨-, h⟩ u hu hcode
      exact h u (List.mem_filter.mpr ⟨hu, by simp [hcode]⟩)
    · intro h
      refine ⟨rfl, fun t ht => ?_⟩
      exact h t (List.mem_filter.mp ht).1
        (by simpa using (List.mem_filter.mp ht).2)
  · rw [get_active_tariffs, hchar, get_active_tariffs,
      get_active_foldl_pick, List.filter_filter]
    rw [← pickBetter_foldl_filter_qualifying period
      (items.filter (fun t => t.code == code)) none,
      List.filter_filter]
    have hpred :
        (fun (a : TariffItem) =>
          decide (a.valid_from ≤ period) && (a.code == code)) =
        (fun (a : TariffItem) =>
          (a.code == code) && decide (a.valid_from ≤ period)) := by
      funext a
      rw [Bool.and_comm]
    rw [hpred]

/-- Witness for C4 at the scenario tariff table: the resolved `radio` row
is in the table, has the right code, qualifies for the period, and is the
latest qualifying `radio` version. -/
theorem c4_tariff_resolver_contract_witness :
    (⟨2, "radio", "Радио", "fixed", 60, 20250101⟩ : TariffItem) ∈
        scenarioTariffItems ∧
    (⟨2, "radio", "Радио", "fixed", 60, 20250101⟩ : TariffItem).code =
        "radio" ∧
    (⟨2, "radio", "Радио", "fixed", 60, 20250101⟩ :
        TariffItem).valid_from ≤ 20250201 ∧
    ∀ u ∈ scenarioTariffItems, u.code = "radio" →
      u.valid_from ≤ 20250201 →
      u.valid_from ≤ (⟨2, "radio", "Радио", "fixed", 60, 20250101⟩ :
        TariffItem).valid_from :=
  (c4_tariff_resolver_contract scenarioTariffItems 20250201 "radio").1 _ rfl

/-! ## Claim C2: the registry apartment lacks the billing attributes -/

/-- **C2 (code bug).**  `calculate_charges_for_apartment` reads the
attributes `area`, `radio`, `antenna` and `intercom` from each registry
apartment, but the `Apartment` ORM model defines none of them — the access
raises `AttributeError` for every apartment, so the function cannot return
a result on the actual registry records, contrary to the claim (and to the
spec's data model, which is clearly the intent). -/
theorem c2_billing_attributes_missing :
    "area" ∈ chargeCalculatorApartmentReads ∧
    "radio" ∈ chargeCalculatorApartmentReads ∧
    "antenna" ∈ chargeCalculatorApartmentReads ∧
    "intercom" ∈ chargeCalculatorApartmentReads ∧
    "area" ∉ apartmentModelColumns ∧
    "radio" ∉ apartmentModelColumns ∧
    "antenna" ∉ apartmentModelColumns ∧
    "intercom" ∉ apartmentModelColumns := by decide

/-! ## Claim C5: the reconciliation matcher -/

theorem matchedTransform_isSome (mapping : Nat → Option Nat)
    (p : ParsedPayment) :
    (matchedTransform mapping p).isSome = isMatchedB mapping p := by
  cases hg : p.guessed_apartment_number with
  | none => simp [matchedTransform, isMatchedB, hg]
  | some n =>
    cases hm : mapping n <;>
      simp [matchedTransform, isMatchedB, hg, hm]

theorem attach_foldl_char (mapping : Nat → Option Nat) :
    ∀ (payments : List ParsedPayment) (m u : List ParsedPayment),
      payments.foldl (attachStep mapping) (m, u) =
        (m ++ payments.filterMap (matchedTransform mapping),
         u ++ payments.filter (fun p => !(isMatchedB mapping p))) := by
  intro payments
  induction payments with
  | nil => intro m u; simp
  | cons p ps ih =>
    intro m u
    rw [List.foldl_cons]
    cases hg : p.guessed_apartment_number with
    | none =>
      have hstep : attachStep mapping (m, u) p = (m, u ++ [p]) := by
        simp [attachStep, hg]
      rw [hstep, ih]
      simp [matchedTransform, isMatchedB, hg, List.filterMap_cons,
        List.filter_cons, List.append_assoc]
    | some n =>
      cases hm : mapping n with
      | none =>
        have hstep : attachStep mapping (m, u) p = (m, u ++ [p]) := by
          simp [attachStep, hg, hm]
        rw [hstep, ih]
        simp [matchedTransform, isMatchedB, hg, hm, List.filterMap_cons,
          List.filter_cons, List.append_assoc]
      | some i =>
        have hstep : attachStep mapping (m, u) p =
            (m ++ [{ p with apartment_id := some i }], u) := by
          simp [attachStep, hg, hm]
        rw [hstep, ih]
        simp [matchedTransform, isMatchedB, hg, hm, List.filterMap_cons,
          List.filter_cons, List.append_assoc]

theorem length_filterMap_add_filter_none {α β : Type} (f : α → Option β) :
    ∀ l : List α,
      (l.filterMap f).length +
        (l.filter (fun a => (f a).isNone)).length = l.length := by
  intro l
  induction l with
  | nil => rfl
  | cons a l ih =>
    cases hf : f a with
    | none =>
      simp [List.filterMap_cons, List.filter_cons, hf]
      omega
    | some b =>
      simp [List.filterMap_cons, List.filter_cons, hf]
      omega

/-- The registry-dict step of `buildMapping`. -/
theorem buildMapping_foldl_not_mem :
    ∀ (l : List Apartment) (m0 : Nat → Option Nat) (n : Nat),
      n ∉ l.map Apartment.number →
      (l.foldl (fun m a => fun k =>
        if k = a.number then some a.id else m k) m0) n = m0 n := by
  intro l
  induction l with
  | nil => intro m0 n _; rfl
  | cons b l ih =>
    intro m0 n hn
    rw [List.map_cons] at hn
    rw [List.foldl_cons, ih _ _ (fun h => hn (List.mem_cons_of_mem _ h))]
    have hnb : n ≠ b.number := fun h => hn (h ▸ List.mem_cons_self _ _)
    simp [hnb]

theorem buildMapping_isSome_iff :
    ∀ (l : List Apartment) (m0 : Nat → Option Nat) (n : Nat),
      ((l.foldl (fun m a => fun k =>
          if k = a.number then some a.id else m k) m0) n).isSome = true ↔
        (m0 n).isSome = true ∨ n ∈ l.map Apartment.number := by
  intro l
  induction l with
  | nil => intro m0 n; simp
  | cons b l ih =>
    intro m0 n
    rw [List.foldl_cons, ih, List.map_cons]
    by_cases hnb : n = b.number
    · subst hnb
      simp
    · simp [hnb]

theorem buildMapping_lookup :
    ∀ (l : List Apartment) (m0 : Nat → Option Nat),
      (l.map Apartment.number).Nodup →
      ∀ a ∈ l,
        (l.foldl (fun m a => fun k =>
          if k = a.number then some a.id else m k) m0) a.number =
            some a.id := by
  intro l
  induction l with
  | nil => intro m0 _ a ha; cases ha
  | cons b l ih =>
    intro m0 hnd a ha
    rw [List.map_cons, List.nodup_cons] at hnd
    rw [List.foldl_cons]
    cases ha with
    | head =>
      rw [buildMapping_foldl_not_mem l _ _ hnd.1]
      simp
    | tail _ ha => exact ih _ hnd.2 a ha

/-- **C5.**  The matcher partitions the payments: the matched list is
exactly the in-order sublist of payments whose guessed number is a registry
number, each with the registry id written into `apartment_id`; the
unmatched list is exactly the in-order rest (guessed number absent or
unknown); the two cardinalities sum to the input cardinality; a payment is
matched iff its guessed number is some registry number; and with unique
registry numbers the id written is the id of the apartment bearing that
number. -/
theorem c5_matcher_partition (apartments : List Apartment)
    (payments : List ParsedPayment) :
    (attach_apartment_ids payments apartments).1 =
        payments.filterMap (matchedTransform (buildMapping apartments)) ∧
    (attach_apartment_ids payments apartments).2 =
        payments.filter
          (fun p => !(isMatchedB (buildMapping apartments) p)) ∧
    (attach_apartment_ids payments apartments).1.length +
        (attach_apartment_ids payments apartments).2.length =
      payments.length ∧
    (∀ p : ParsedPayment,
      isMatchedB (buildMapping apartments) p = true ↔
        ∃ n, p.guessed_apartment_number = some n ∧
          n ∈ apartments.map Apartment.number) ∧
    ((apartments.map Apartment.number).Nodup →
      ∀ a ∈ apartments, buildMapping apartments a.number = some a.id) := by
  have hchar := attach_foldl_char (buildMapping apartments) payments [] []
  have h1 : (attach_apartment_ids payments apartments).1 =
      payments.filterMap (matchedTransform (buildMapping apartments)) := by
    rw [attach_apartment_ids, hchar]
    simp
  have h2 : (attach_apartment_ids payments apartments).2 =
      payments.filter
        (fun p => !(isMatchedB (buildMapping apartments) p)) := by
    rw [attach_apartment_ids, hchar]
    simp
  refine ⟨h1, h2, ?_, ?_, ?_⟩
  · have hpred :
        (fun p => !(isMatchedB (buildMapping apartments) p)) =
        (fun a =>
          ((matchedTransform (buildMapping apartments) a).isNone)) := by
      funext p
      rw [← matchedTransform_isSome]
      cases matchedTransform (buildMapping apartments) p <;> rfl
    rw [h1, h2, hpred]
    exact length_filterMap_add_filter_none _ payments
  · intro p
    cases hg : p.guessed_apartment_number with
    | none => simp [isMatchedB, hg]
    | some n =>
      rw [isMatchedB, hg]
      rw [buildMapping, buildMapping_isSome_iff]
      simp [hg]
  · intro hnd a ha
    exact buildMapping_lookup apartments _ hnd a ha

/-- Witness for C5: on a concrete two-apartment registry the mapping sends
number 12 to registry id 3. -/
theorem c5_matcher_partition_witness :
    buildMapping [⟨3, 12, none⟩, ⟨4, 19, none⟩] 12 = some 3 :=
  (c5_matcher_partition [⟨3, 12, none⟩, ⟨4, 19, none⟩] []).2.2.2.2
    (by decide) ⟨3, 12, none⟩ (by decide)

/-! ## Claim C3: the bank-percent surcharge line -/

theorem filter_bank_targetPart (apt : BillingApartment) (period : Int)
    (tariffs : String → Option TariffItem) :
    (targetPart apt period tariffs).1.filter
      (fun r => r.item_code == "bank_percent") = [] := by
  cases h : tariffs "target_fee" with
  | none => simp [targetPart, h]
  | some t =>
    rcases eq_or_ne apt.area 0 with ha | ha
    · simp [targetPart, h, ha]
    · simp [targetPart, h, ha]

theorem filter_bank_radioPart (apt : BillingApartment) (period : Int)
    (tariffs : String → Option TariffItem) :
    (radioPart apt period tariffs).1.filter
      (fun r => r.item_code == "bank_percent") = [] := by
  cases h : tariffs "radio" with
  | none => simp [radioPart, h]
  | some t =>
    rcases eq_or_ne apt.radio 0 with ha | ha
    · simp [radioPart, h, ha]
    · simp [radioPart, h, ha]

theorem filter_bank_antennaPart (apt : BillingApartment) (period : Int)
    (tariffs : String → Option TariffItem) :
    (antennaPart apt period tariffs).1.filter
      (fun r => r.item_code == "bank_percent") = [] := by
  cases h : tariffs "antenna" with
  | none => simp [antennaPart, h]
  | some t =>
    rcases eq_or_ne apt.antenna 0 with ha | ha
    · simp [antennaPart, h, ha]
    · simp [antennaPart, h, ha]

theorem filter_bank_intercomPart (apt : BillingApartment) (period : Int) :
    (intercomPart apt period).1.filter
      (fun r => r.item_code == "bank_percent") = [] := by
  by_cases h : apt.intercom ≠ 0 ∧ 0 < apt.intercom
  · simp [intercomPart, h]
  · simp [intercomPart, h]

theorem filter_bank_bankPart (apt : BillingApartment) (period : Int)
    (tariffs : String → Option TariffItem) (total : ℚ) :
    (bankPart apt period tariffs total).filter
        (fun r => r.item_code == "bank_percent") =
      bankPart apt period tariffs total := by
  cases h : tariffs "bank_percent" with
  | none => simp [bankPart, h]
  | some t =>
    by_cases ht : 0 < total
    · simp [bankPart, h, ht]
    · simp [bankPart, h, ht]

theorem presubtotal_eq_parts (apt : BillingApartment) (period : Int)
    (tariffs : String → Option TariffItem) :
    presurchargeSubtotal apt tariffs =
      (targetPart apt period tariffs).2 + (radioPart apt period tariffs).2 +
        (antennaPart apt period tariffs).2 + (intercomPart apt period).2 := by
  rw [presurchargeSubtotal, targetPart, radioPart, antennaPart, intercomPart]
  cases tariffs "target_fee" <;> cases tariffs "radio" <;>
    cases tariffs "antenna" <;> split_ifs <;> rfl

/-- **C3.**  The `bank_percent` line: filtered out of the per-apartment
charge lines, it is exactly one line iff a `bank_percent` tariff exists and
the pre-surcharge subtotal is strictly positive, with amount
`round2(subtotal × (rate / 100))`; and the §8 scenario produces the four
expected lines `target_fee = 1620.00`, `radio = 60.00`, `intercom =
150.00`, `bank_percent = 27.45`. -/
theorem c3_bank_percent_line (apt : BillingApartment) (period : Int)
    (tariffs : String → Option TariffItem) :
    ((calculate_charges_for_apartment apt period tariffs).filter
        (fun r => r.item_code == "bank_percent") =
      (match tariffs "bank_percent" with
       | some t =>
         if 0 < presurchargeSubtotal apt tariffs then
           [{ apartment_id := apt.id, apartment_number := apt.number,
              period := period, item_code := "bank_percent",
              item_name := t.name,
              amount := round2 (presurchargeSubtotal apt tariffs *
                (t.value / 100)) }]
         else []
       | none => [])) ∧
    calculate_charges_for_apartment apt12 (month_start 2025 2)
        (get_active_tariffs scenarioTariffItems (month_start 2025 2)) =
      [{ apartment_id := 1, apartment_number := 12, period := 20250201,
         item_code := "target_fee", item_name := "Целевой взнос",
         amount := 1620 },
       { apartment_id := 1, apartment_number := 12, period := 20250201,
         item_code := "radio", item_name := "Радио", amount := 60 },
       { apartment_id := 1, apartment_number := 12, period := 20250201,
         item_code := "intercom", item_name := "Домофон", amount := 150 },
       { apartment_id := 1, apartment_number := 12, period := 20250201,
         item_code := "bank_percent", item_name := "Банковский процент",
         amount := 27.45 }] := by
  constructor
  · rw [calculate_charges_for_apartment]
    rw [List.filter_append, List.filter_append, List.filter_append,
      List.filter_append, filter_bank_targetPart, filter_bank_radioPart,
      filter_bank_antennaPart, filter_bank_intercomPart,
      filter_bank_bankPart]
    simp only [List.nil_append]
    rw [← presubtotal_eq_parts apt period tariffs, bankPart]
  · have htf : get_active_tariffs scenarioTariffItems (month_start 2025 2)
        "target_fee" =
        some ⟨1, "target_fee", "Целевой взнос", "per_m2", 30,
          20250101⟩ := rfl
    have hr : get_active_tariffs scenarioTariffItems (month_start 2025 2)
        "radio" = some ⟨2, "radio", "Радио", "fixed", 60, 20250101⟩ := rfl
    have ha : get_active_tariffs scenarioTariffItems (month_start 2025 2)
        "antenna" = none := rfl
    have hb : get_active_tariffs scenarioTariffItems (month_start 2025 2)
        "bank_percent" =
        some ⟨3, "bank_percent", "Банковский процент", "percent", 1.5,
          20250101⟩ := rfl
    simp only [calculate_charges_for_apartment, targetPart, radioPart,
      antennaPart, intercomPart, bankPart, htf, hr, ha, hb, apt12]
    norm_num [month_start]
    refine ⟨?_, ?_, ?_, ?_⟩
    · rw [round2_eq_of_mul_hundred 1620 162000 (by norm_num)]
      norm_num
    · rw [round2_eq_of_mul_hundred 60 6000 (by norm_num)]
      norm_num
    · rw [round2_eq_of_mul_hundred 150 15000 (by norm_num)]
      norm_num
    · rw [round2_eq_of_mul_hundred (549 / 20) 2745 (by norm_num)]
      norm_num

/-! ## Claim C9: delete-then-insert charge generation -/

theorem mem_targetPart (apt : BillingApartment) (period : Int)
    (tariffs : String → Option TariffItem) (r : ChargeRow) :
    r ∈ (targetPart apt period tariffs).1 →
      r.period = period ∧ r.apartment_id = apt.id := by
  cases h : tariffs "target_fee" with
  | none => simp [targetPart, h]
  | some t =>
    rcases eq_or_ne apt.area 0 with ha | ha
    · simp [targetPart, h, ha]
    · simp only [targetPart, h, if_pos ha, List.mem_singleton]
      rintro rfl
      exact ⟨rfl, rfl⟩

theorem mem_radioPart (apt : BillingApartment) (period : Int)
    (tariffs : String → Option TariffItem) (r : ChargeRow) :
    r ∈ (radioPart apt period tariffs).1 →
      r.period = period ∧ r.apartment_id = apt.id := by
  cases h : tariffs "radio" with
  | none => simp [radioPart, h]
  | some t =>
    rcases eq_or_ne apt.radio 0 with ha | ha
    · simp [radioPart, h, ha]
    · simp only [radioPart, h, if_pos ha, List.mem_singleton]
      rintro rfl
      exact ⟨rfl, rfl⟩

theorem mem_antennaPart (apt : BillingApartment) (period : Int)
    (tariffs : String → Option TariffItem) (r : ChargeRow) :
    r ∈ (antennaPart apt period tariffs).1 →
      r.period = period ∧ r.apartment_id = apt.id := by
  cases h : tariffs "antenna" with
  | none => simp [antennaPart, h]
  | some t =>
    rcases eq_or_ne apt.antenna 0 with ha | ha
    · simp [antennaPart, h, ha]
    · simp only [antennaPart, h, if_pos ha, List.mem_singleton]
      rintro rfl
      exact ⟨rfl, rfl⟩

theorem mem_intercomPart (apt : BillingApartment) (period : Int)
    (r : ChargeRow) :
    r ∈ (intercomPart apt period).1 →
      r.period = period ∧ r.apartment_id = apt.id := by
  by_cases h : apt.intercom ≠ 0 ∧ 0 < apt.intercom
  · simp only [intercomPart, if_pos h, List.mem_singleton]
    rintro rfl
    exact ⟨rfl, rfl⟩
  · simp [intercomPart, h]

theorem mem_bankPart (apt : BillingApartment) (period : Int)
    (tariffs : String → Option TariffItem) (total : ℚ) (r : ChargeRow) :
    r ∈ bankPart apt period tariffs total →
      r.period = period ∧ r.apartment_id = apt.id := by
  cases h : tariffs "bank_percent" with
  | none => simp [bankPart, h]
  | some t =>
    by_cases ht : 0 < total
    · simp only [bankPart, h, if_pos ht, List.mem_singleton]
      rintro rfl
      exact ⟨rfl, rfl⟩
    · simp [bankPart, h, ht]

/-- Every emitted charge row carries the billed period and the apartment's
registry id. -/
theorem mem_calculate_charges (apt : BillingApartment) (period : Int)
    (tariffs : String → Option TariffItem) (r : ChargeRow) :
    r ∈ calculate_charges_for_apartment apt period tariffs →
      r.period = period ∧ r.apartment_id = apt.id := by
  rw [calculate_charges_for_apartment]
  intro hr
  simp only [List.mem_append] at hr
  rcases hr with ((((h | h) | h) | h) | h)
  · exact mem_targetPart apt period tariffs r h
  · exact mem_radioPart apt period tariffs r h
  · exact mem_antennaPart apt period tariffs r h
  · exact mem_intercomPart apt period r h
  · exact mem_bankPart apt period tariffs _ r h

/-- The item codes of one apartment's charge lines, in order, form a
sublist of the five codes of the calculator's fixed sequence. -/
theorem codes_sublist (apt : BillingApartment) (period : Int)
    (tariffs : String → Option TariffItem) :
    List.Sublist
      ((calculate_charges_for_apartment apt period tariffs).map
        (fun r => r.item_code))
      ["target_fee", "radio", "antenna", "intercom", "bank_percent"] := by
  rw [calculate_charges_for_apartment]
  rw [List.map_append, List.map_append, List.map_append, List.map_append]
  have h1 : List.Sublist
      ((targetPart apt period tariffs).1.map (fun r => r.item_code))
      ["target_fee"] := by
    cases h : tariffs "target_fee" with
    | none => simp [targetPart, h]
    | some t =>
      rcases eq_or_ne apt.area 0 with ha | ha
      · simp [targetPart, h, ha]
      · simp [targetPart, h, ha]
  have h2 : List.Sublist
      ((radioPart apt period tariffs).1.map (fun r => r.item_code))
      ["radio"] := by
    cases h : tariffs "radio" with
    | none => simp [radioPart, h]
    | some t =>
      rcases eq_or_ne apt.radio 0 with ha | ha
      · simp [radioPart, h, ha]
      · simp [radioPart, h, ha]
  have h3 : List.Sublist
      ((antennaPart apt period tariffs).1.map (fun r => r.item_code))
      ["antenna"] := by
    cases h : tariffs "antenna" with
    | none => simp [antennaPart, h]
    | some t =>
      rcases eq_or_ne apt.antenna 0 with ha | ha
      · simp [antennaPart, h, ha]
      · simp [antennaPart, h, ha]
  have h4 : List.Sublist
      ((intercomPart apt period).1.map (fun r => r.item_code))
      ["intercom"] := by
    by_cases h : apt.intercom ≠ 0 ∧ 0 < apt.intercom
    · simp [intercomPart, h]
    · simp [intercomPart, h]
  have h5 : List.Sublist
      ((bankPart apt period tariffs
          ((targetPart apt period tariffs).2 +
            (radioPart apt period tariffs).2 +
            (antennaPart apt period tariffs).2 +
            (intercomPart apt period).2)).map (fun r => r.item_code))
      ["bank_percent"] := by
    cases h : tariffs "bank_percent" with
    | none => simp [bankPart, h]
    | some t =>
      by_cases ht : 0 < (targetPart apt period tariffs).2 +
          (radioPart apt period tariffs).2 +
          (antennaPart apt period tariffs).2 + (intercomPart apt period).2
      · simp [bankPart, h, ht]
      · simp [bankPart, h, ht]
  exact ((((h1.append h2).append h3).append h4).append h5)

/-- One apartment's charge lines carry pairwise distinct item codes. -/
theorem codes_nodup (apt : BillingApartment) (period : Int)
    (tariffs : String → Option TariffItem) :
    ((calculate_charges_for_apartment apt period tariffs).map
      (fun r => r.item_code)).Nodup :=
  (codes_sublist apt period tariffs).nodup (by decide)

theorem mem_flatten_calc (apartments : List BillingApartment)
    (period : Int) (T : String → Option TariffItem) (r : ChargeRow) :
    r ∈ (apartments.map
        (fun a => calculate_charges_for_apartment a period T)).flatten →
      r.period = period ∧ ∃ a ∈ apartments, r.apartment_id = a.id := by
  intro h
  rw [List.mem_flatten] at h
  rcases h with ⟨l, hl, hr⟩
  rw [List.mem_map] at hl
  rcases hl with ⟨a, ha, rfl⟩
  rcases mem_calculate_charges a period T r hr with ⟨h1, h2⟩
  exact ⟨h1, a, ha, h2⟩

theorem key_mem_fst (a : BillingApartment) (period : Int)
    (T : String → Option TariffItem) (k : Nat × String) :
    k ∈ (calculate_charges_for_apartment a period T).map
        (fun r => (r.apartment_id, r.item_code)) → k.1 = a.id := by
  intro hk
  rw [List.mem_map] at hk
  rcases hk with ⟨r, hr, rfl⟩
  exact (mem_calculate_charges a period T r hr).2

/-- **C9.**  With persistence enabled, `generate_charges` performs a
destructive replace of the target period: the new table is the old rows of
other periods plus the freshly computed lines; running it a second time
with unchanged tariffs and registry leaves both the stored table and the
computed rows identical; and (for a registry with distinct apartment ids)
the stored rows of the period carry pairwise-distinct
`(apartment id, item code)` keys — at most one row per key. -/
theorem c9_generate_charges_idempotent (db : List Charge)
    (items : List TariffItem) (apartments : List BillingApartment)
    (year month : Int)
    (hids : (apartments.map BillingApartment.id).Nodup) :
    (generate_charges
        (generate_charges db items apartments year month true).1
        items apartments year month true).1 =
      (generate_charges db items apartments year month true).1 ∧
    (generate_charges
        (generate_charges db items apartments year month true).1
        items apartments year month true).2 =
      (generate_charges db items apartments year month true).2 ∧
    (generate_charges db items apartments year month true).1 =
      db.filter (fun c => !(c.period == month_start year month)) ++
        ((generate_charges db items apartments year month true).2.map
          (fun r =>
            { apartment_id := r.apartment_id, period := r.period,
              item_code := r.item_code, item_name := r.item_name,
              amount := r.amount })) ∧
    (((generate_charges db items apartments year month true).1.filter
        (fun c => c.period == month_start year month)).map
        (fun c => (c.apartment_id, c.item_code))).Nodup := by
  set p := month_start year month with hp
  set T := get_active_tariffs items p with hT
  set new : List ChargeRow :=
    (apartments.map (fun a => calculate_charges_for_apartment a p T)).flatten
    with hnew
  have hperiod : ∀ r ∈ new, r.period = p := by
    intro r hr
    exact (mem_flatten_calc apartments p T r hr).1
  have hG2 : (generate_charges db items apartments year month true).2 =
      new := rfl
  have hG1 : (generate_charges db items apartments year month true).1 =
      db.filter (fun c => !(c.period == p)) ++
        new.map (fun r =>
          { apartment_id := r.apartment_id, period := r.period,
            item_code := r.item_code, item_name := r.item_name,
            amount := r.amount }) := rfl
  have hstored_period : ∀ c ∈ new.map (fun r =>
      ({ apartment_id := r.apartment_id, period := r.period,
         item_code := r.item_code, item_name := r.item_name,
         amount := r.amount } : Charge)), c.period = p := by
    intro c hc
    rw [List.mem_map] at hc
    rcases hc with ⟨r, hr, rfl⟩
    exact hperiod r hr
  have hfilter_ne : ∀ (l : List Charge), (∀ c ∈ l, c.period = p) →
      l.filter (fun c => !(c.period == p)) = [] := by
    intro l hl
    rw [List.filter_eq_nil_iff]
    intro c hc
    simp [hl c hc]
  have hfilter_eq : ∀ (l : List Charge), (∀ c ∈ l, c.period = p) →
      l.filter (fun c => c.period == p) = l := by
    intro l hl
    rw [List.filter_eq_self]
    intro c hc
    simp [hl c hc]
  have hG21 : (generate_charges
      (generate_charges db items apartments year month true).1
      items apartments year month true).1 =
      (generate_charges db items apartments year month true).1 := by
    have hstep : (generate_charges
        (generate_charges db items apartments year month true).1
        items apartments year month true).1 =
        ((generate_charges db items apartments year month true).1.filter
          (fun c => !(c.period == p))) ++
          new.map (fun r =>
            { apartment_id := r.apartment_id, period := r.period,
              item_code := r.item_code, item_name := r.item_name,
              amount := r.amount }) := rfl
    rw [hstep, hG1, List.filter_append, List.filter_filter]
    rw [hfilter_ne _ hstored_period]
    have hself : (fun (c : Charge) =>
        !(c.period == p) && !(c.period == p)) =
        (fun (c : Charge) => !(c.period == p)) := by
      funext c
      rw [Bool.and_self]
    rw [hself, List.append_nil]
  refine ⟨hG21, rfl, hG1, ?_⟩
  rw [hG1, List.filter_append, List.filter_filter]
  have hcontra : (fun (c : Charge) =>
      (c.period == p) && !(c.period == p)) = (fun _ => false) := by
    funext c
    rw [Bool.and_not_self]
  rw [hcontra, List.filter_false, List.nil_append]
  rw [hfilter_eq _ hstored_period]
  rw [List.map_map]
  have hmapnew : (new.map (fun r => (r.apartment_id, r.item_code))) =
      (apartments.map (fun a =>
        (calculate_charges_for_apartment a p T).map
          (fun r => (r.apartment_id, r.item_code)))).flatten := by
    rw [hnew, List.map_flatten, List.map_map]
    rfl
  show ((new.map (fun r => (r.apartment_id, r.item_code)))).Nodup
  rw [hmapnew, List.nodup_flatten]
  constructor
  · intro l hl
    rw [List.mem_map] at hl
    rcases hl with ⟨a, _, rfl⟩
    apply List.Nodup.of_map Prod.snd
    rw [List.map_map]
    exact codes_nodup a p T
  · rw [List.pairwise_map]
    have hpw : apartments.Pairwise (fun a b => a.id ≠ b.id) :=
      List.pairwise_map.mp hids
    refine hpw.imp ?_
    intro a b hab
    intro k hka hkb
    exact hab ((key_mem_fst a p T k hka).symm.trans (key_mem_fst b p T k hkb))

/-- Witness for C9: one apartment, the scenario tariffs, an empty table —
the second run reproduces the first run's stored table. -/
theorem c9_generate_charges_idempotent_witness :
    (generate_charges
        (generate_charges [] scenarioTariffItems [apt12] 2025 2 true).1
        scenarioTariffItems [apt12] 2025 2 true).1 =
      (generate_charges [] scenarioTariffItems [apt12] 2025 2 true).1 :=
  (c9_generate_charges_idempotent [] scenarioTariffItems [apt12] 2025 2
    (by decide)).1

/-! ## Claims C7 and C10: the sender tier of the extractor -/

/-- **C7.**  When the sender block contains the cooperative's street,
house and building-section tokens and its `кв`-pattern search yields `n`,
the extractor returns `n` whatever the description says: the sender tier
wins. -/
theorem c7_sender_tier_wins (description si : String) (n : Nat)
    (hstreet : hasSub (pyLower si.data) HOME_STREET = true)
    (hhouse : hasSub (pyLower si.data) HOME_HOUSE = true)
    (hkorp : hasSub (pyLower si.data) HOME_KORP = true)
    (hfind : searchPat (kvMatchAt clsKvSender) (pyLower si.data) = some n) :
    detect_apartment description (some si) = some n := by
  have hne : si.data ≠ [] := by
    intro h
    rw [h] at hstreet
    cases hstreet
  rw [detect_apartment]
  simp only [hne, if_pos, ne_eq, not_false_iff, if_true, hstreet, hhouse,
    hkorp, Bool.and_self, hfind]

/-- Witness for C7: the scenario sender block with `кв 19` wins over a
description naming apartment 7. -/
theorem c7_sender_tier_wins_witness :
    detect_apartment "Оплата ЖКУ кв 7"
      (some "Иванов И И//ул Болотниковская д 38 корп 6 кв 19//") =
      some 19 :=
  c7_sender_tier_wins "Оплата ЖКУ кв 7"
    "Иванов И И//ул Болотниковская д 38 корп 6 кв 19//" 19
    (by decide) (by decide) (by decide) (by decide)

/-- **C10.**  If the sender block carries all three home-address tokens but
no `кв`-digits pattern, the extractor does not stop: it behaves exactly as
with no sender info, so the description rules still apply. -/
theorem c10_sender_tier_falls_through (description si : String)
    (hstreet : hasSub (pyLower si.data) HOME_STREET = true)
    (hhouse : hasSub (pyLower si.data) HOME_HOUSE = true)
    (hkorp : hasSub (pyLower si.data) HOME_KORP = true)
    (hnone : searchPat (kvMatchAt clsKvSender) (pyLower si.data) = none) :
    detect_apartment description (some si) =
      detect_apartment description none := by
  have hne : si.data ≠ [] := by
    intro h
    rw [h] at hstreet
    cases hstreet
  rw [detect_apartment, detect_apartment]
  simp only [hne, if_pos, ne_eq, not_false_iff, if_true, hstreet, hhouse,
    hkorp, Bool.and_self, hnone]

/-- Witness for C10: address tokens without an apartment marker fall back
to the description, which yields 12. -/
theorem c10_sender_tier_falls_through_witness :
    detect_apartment "Оплата ЖКУ кв 12"
      (some "ул Болотниковская д 38 корп 6") =
      detect_apartment "Оплата ЖКУ кв 12" none :=
  c10_sender_tier_falls_through "Оплата ЖКУ кв 12"
    "ул Болотниковская д 38 корп 6"
    (by decide) (by decide) (by decide) (by decide)

/-! ## Claim C8: schema-detection failure of the normalizer -/

theorem hasSub_nil_needle : ∀ b : List Char, hasSub b [] = true := by
  intro b
  cases b with
  | nil => rfl
  | cons c t => rfl

theorem hasSub_append_right (a b n : List Char) (h : hasSub b n = true) :
    hasSub (a ++ b) n = true := by
  induction a with
  | nil => exact h
  | cons c t ih =>
    rw [List.cons_append, hasSub, Bool.or_eq_true]
    exact Or.inr ih

theorem hasSub_append_left (n b : List Char) :
    ∀ a, hasSub a n = true → hasSub (a ++ b) n = true := by
  intro a
  induction a with
  | nil =>
    intro h
    rw [hasSub, List.isEmpty_iff] at h
    subst h
    exact hasSub_nil_needle b
  | cons c t ih =>
    intro h
    rw [hasSub, Bool.or_eq_true] at h
    rw [List.cons_append, hasSub, Bool.or_eq_true]
    rcases h with hpre | hsub
    · left
      rw [List.isPrefixOf_iff_prefix] at hpre ⊢
      exact hpre.trans (List.prefix_append (c :: t) b)
    · exact Or.inr (ih hsub)

/-- The schema-failure message names all three canonical fields. -/
theorem errMsg_names_fields (cd ca cdesc : Option String) :
    hasSub (errMsgSchema cd ca cdesc).data "date=".data = true ∧
    hasSub (errMsgSchema cd ca cdesc).data "amount=".data = true ∧
    hasSub (errMsgSchema cd ca cdesc).data "descr=".data = true := by
  refine ⟨?_, ?_, ?_⟩
  · simp only [errMsgSchema, String.data_append, List.append_assoc]
    exact hasSub_append_left _ _ _ (by decide)
  · simp only [errMsgSchema, String.data_append, List.append_assoc]
    apply hasSub_append_right
    apply hasSub_append_right
    exact hasSub_append_left _ _ _ (by decide)
  · simp only [errMsgSchema, String.data_append, List.append_assoc]
    apply hasSub_append_right
    apply hasSub_append_right
    apply hasSub_append_right
    apply hasSub_append_right
    exact hasSub_append_left _ _ _ (by decide)

/-- **C8.**  The normalizer fails iff a required column is missing: no
date-column label, no description-column label, or neither an amount nor a
credit-amount label matches.  When it fails, the error message names the
date, amount and description fields, and no output rows exist (the error
carries no partial import). -/
theorem c8_schema_detection_failure (parseDate : String → Option Int)
    (parseNum : String → Option ℚ) (df : DF) :
    ((∃ msg, read_sber_statement_excel parseDate parseNum df =
        Except.error msg) ↔
      (find_column df ["дата проводки"] = none ∨
       find_column df ["назначение платежа"] = none ∨
       (find_column df ["сумма"] = none ∧
        find_column df ["сумма по кредиту"] = none))) ∧
    (∀ msg, read_sber_statement_excel parseDate parseNum df =
        Except.error msg →
      (hasSub msg.data "date=".data = true ∧
       hasSub msg.data "amount=".data = true ∧
       hasSub msg.data "descr=".data = true) ∧
      ∀ rows, read_sber_statement_excel parseDate parseNum df ≠
        Except.ok rows) := by
  constructor
  · rcases h1 : find_column df ["дата проводки"] with _ | d <;>
      rcases h2 : find_column df ["назначение платежа"] with _ | ds <;>
      rcases h3 : find_column df ["сумма"] with _ | am <;>
      rcases h4 : find_column df ["сумма по кредиту"] with _ | cr <;>
      simp [read_sber_statement_excel, h1, h2, h3, h4]
  · intro msg hmsg
    refine ⟨?_, ?_⟩
    · rcases h1 : find_column df ["дата проводки"] with _ | d <;>
        rcases h2 : find_column df ["назначение платежа"] with _ | ds <;>
        rcases h3 : find_column df ["сумма"] with _ | am <;>
        rcases h4 : find_column df ["сумма по кредиту"] with _ | cr <;>
        rw [read_sber_statement_excel] at hmsg <;>
        simp only [h1, h2, h3, h4] at hmsg <;>
        cases hmsg <;>
        exact errMsg_names_fields _ _ _
    · intro rows hrows
      rw [hmsg] at hrows
      cases hrows

/-- Witness for C8: a sheet whose only column label matches nothing — so
the run aborts with the message naming all three fields and no rows. -/
theorem c8_schema_detection_failure_witness :
    (hasSub (errMsgSchema none none none).data "date=".data = true ∧
     hasSub (errMsgSchema none none none).data "amount=".data = true ∧
     hasSub (errMsgSchema none none none).data "descr=".data = true) ∧
    ∀ rows,
      read_sber_statement_excel (fun _ => none) (fun _ => none)
        ⟨["прочее"], []⟩ ≠ Except.ok rows :=
  (c8_schema_detection_failure (fun _ => none) (fun _ => none)
    ⟨["прочее"], []⟩).2 (errMsgSchema none none none) rfl

/-! ## Claim C6: character-level lemmas for the extractor -/

theorem toNat_ofNat_valid (n : Nat) (h : n.isValidChar) :
    (Char.ofNat n).toNat = n := by
  rw [Char.ofNat, dif_pos h]
  rfl

theorem isDigitB_iff (c : Char) :
    isDigitB c = true ↔ 48 ≤ c.toNat ∧ c.toNat ≤ 57 := by
  simp [isDigitB]

theorem pyLowerChar_digit (c : Char) (h : isDigitB c = true) :
    pyLowerChar c = c := by
  rw [isDigitB_iff] at h
  rw [pyLowerChar, if_neg (by omega), if_neg (by omega), if_neg (by omega)]

theorem pyLowerChar_ne_semi (c : Char) (h : c ≠ ';') :
    pyLowerChar c ≠ ';' := by
  have h59 : (';').toNat = 59 := rfl
  rw [pyLowerChar]
  split_ifs with h1 h2 h3
  · intro he
    have ht := congrArg Char.toNat he
    rw [toNat_ofNat_valid _ (Or.inl (by omega)), h59] at ht
    omega
  · intro he
    have ht := congrArg Char.toNat he
    rw [toNat_ofNat_valid _ (Or.inl (by omega)), h59] at ht
    omega
  · intro he
    have ht := congrArg Char.toNat he
    rw [toNat_ofNat_valid _ (Or.inl (by omega)), h59] at ht
    omega
  · exact h

theorem isDigitB_pyLowerChar (c : Char) :
    isDigitB (pyLowerChar c) = isDigitB c := by
  have hd : ∀ x y : Char, x.toNat = y.toNat →
      isDigitB x = isDigitB y := by
    intro x y hxy
    simp [isDigitB, hxy]
  rw [pyLowerChar]
  split_ifs with h1 h2 h3
  · have ht := toNat_ofNat_valid (c.toNat + 32) (Or.inl (by omega))
    simp only [isDigitB]
    rw [ht, Bool.eq_iff_iff]
    simp only [Bool.and_eq_true, decide_eq_true_eq]
    omega
  · have ht := toNat_ofNat_valid (c.toNat + 32) (Or.inl (by omega))
    simp only [isDigitB]
    rw [ht, Bool.eq_iff_iff]
    simp only [Bool.and_eq_true, decide_eq_true_eq]
    omega
  · have ht := toNat_ofNat_valid 1105 (Or.inl (by omega))
    simp only [isDigitB]
    rw [ht, Bool.eq_iff_iff]
    simp only [Bool.and_eq_true, decide_eq_true_eq]
    omega
  · rfl

theorem isSpaceB_eq_false_of_digit (c : Char)
    (h : isDigitB c = true) : isSpaceB c = false := by
  rw [isDigitB_iff] at h
  simp only [isSpaceB, Bool.or_eq_false_iff, beq_eq_false_iff_ne, ne_eq]
  omega

theorem digit_ne_semi (c : Char) (h : isDigitB c = true) : c ≠ ';' := by
  intro he
  subst he
  exact absurd h (by decide)

theorem digit_ne_kv (c : Char) (h : isDigitB c = true) : c ≠ 'к' := by
  intro he
  subst he
  exact absurd h (by decide)

theorem clsKvDesc_eq_false_of_digit (c : Char)
    (h : isDigitB c = true) : clsKvDesc c = false := by
  have h1 : (c == '.') = false := by
    rw [beq_eq_false_iff_ne]
    intro he
    subst he
    exact absurd h (by decide)
  have h2 : isSpaceB c = false := isSpaceB_eq_false_of_digit c h
  have h3 : (c == '-') = false := by
    rw [beq_eq_false_iff_ne]
    intro he
    subst he
    exact absurd h (by decide)
  rw [clsKvDesc, h1, h2, h3]
  rfl

/-! ## Claim C6: list-level lemmas for the extractor -/

theorem dropWhile_append_cons (p : Char → Bool) (A : List Char) (b : Char)
    (B : List Char) (hb : p b = false) :
    (A ++ b :: B).dropWhile p = A.dropWhile p ++ b :: B := by
  induction A with
  | nil =>
    rw [List.nil_append, List.dropWhile_cons, hb]
    rfl
  | cons a A ih =>
    rw [List.cons_append, List.dropWhile_cons, List.dropWhile_cons]
    cases ha : p a
    · simp
    · simp [ih]

/-- `str.strip()` of a string with a non-space first and last character in
its middle segment: the left strip eats into the left part only, the right
strip into the right part only. -/
theorem pyStrip_structure (A mid C : List Char)
    (b : Char) (B : List Char) (hmid : mid = b :: B)
    (hb : isSpaceB b = false)
    (e : Char) (E : List Char) (hrev : mid.reverse = e :: E)
    (he : isSpaceB e = false) :
    pyStrip (A ++ mid ++ C) =
      A.dropWhile isSpaceB ++ mid ++
        (C.reverse.dropWhile isSpaceB).reverse := by
  rw [pyStrip]
  have h1 : (A ++ mid ++ C).dropWhile isSpaceB =
      A.dropWhile isSpaceB ++ mid ++ C := by
    rw [List.append_assoc, hmid, List.cons_append,
      dropWhile_append_cons _ _ _ _ hb, ← List.cons_append, ← hmid,
      ← List.append_assoc]
  rw [h1]
  have h2 : (A.dropWhile isSpaceB ++ mid ++ C).reverse =
      C.reverse ++ e :: (E ++ (A.dropWhile isSpaceB).reverse) := by
    rw [List.reverse_append, List.reverse_append, hrev]
    simp
  rw [h2, dropWhile_append_cons _ _ _ _ he]
  have h3 : E.reverse ++ [e] = mid := by
    rw [← List.reverse_cons, ← hrev, List.reverse_reverse]
  rw [← h3]
  rw [List.reverse_append, List.reverse_cons, List.reverse_append,
    List.reverse_reverse]
  simp [List.append_assoc]

theorem kvMatchAt_none_of_head (cls : Char → Bool) (c : Char)
    (xs : List Char) (hc : c ≠ 'к') : kvMatchAt cls (c :: xs) = none := by
  cases xs with
  | nil => rfl
  | cons c2 rest =>
    rw [kvMatchAt]
    rw [if_neg]
    intro hk
    exact hc hk.1

theorem searchPat_kv_append (cls : Char → Bool) (l2 : List Char) :
    ∀ l1 : List Char, (∀ c ∈ l1, c ≠ 'к') →
      searchPat (kvMatchAt cls) (l1 ++ l2) =
        searchPat (kvMatchAt cls) l2 := by
  intro l1
  induction l1 with
  | nil => intro _; rfl
  | cons c t ih =>
    intro h
    rw [List.cons_append, searchPat,
      kvMatchAt_none_of_head cls c _ (h c (List.mem_cons_self c t))]
    exact ih (fun x hx => h x (List.mem_cons_of_mem c hx))

theorem semiMatchAt_none_of_head (c : Char) (xs : List Char)
    (hc : c ≠ ';') : semiMatchAt (c :: xs) = none := by
  rw [semiMatchAt, if_neg hc]

theorem searchPat_semi_none :
    ∀ l : List Char, (∀ c ∈ l, c ≠ ';') →
      searchPat semiMatchAt l = none := by
  intro l
  induction l with
  | nil => intro _; rfl
  | cons c t ih =>
    intro h
    rw [searchPat,
      semiMatchAt_none_of_head c t (h c (List.mem_cons_self c t))]
    exact ih (fun x hx => h x (List.mem_cons_of_mem c hx))

theorem takeWhile_append_of_head_false (p : Char → Bool) :
    ∀ (l1 l2 : List Char), (∀ c ∈ l1, p c = true) →
      (∀ c ∈ l2.take 1, p c = false) →
      (l1 ++ l2).takeWhile p = l1 := by
  intro l1
  induction l1 with
  | nil =>
    intro l2 _ h2
    cases l2 with
    | nil => rfl
    | cons c t =>
      rw [List.nil_append, List.takeWhile_cons,
        h2 c (by simp [List.take])]
      rfl
  | cons a t ih =>
    intro l2 h1 h2
    rw [List.cons_append, List.takeWhile_cons,
      h1 a (List.mem_cons_self a t)]
    rw [ih l2 (fun x hx => h1 x (List.mem_cons_of_mem a hx)) h2]
    rfl

theorem take_one_of_prefix (l1 l2 : List Char) (h : l1 <+: l2) (c : Char) :
    c ∈ l1.take 1 → c ∈ l2.take 1 := by
  rcases h with ⟨t, rfl⟩
  cases l1 with
  | nil => intro h; cases h
  | cons a rest =>
    intro hc
    simpa using hc

/-- **C6 counterexample.**  The description `"кв 5 кв 7"` contains
`"кв 7"` (with 7 a registry number), yet the extractor returns 5 — the
*first* occurrence wins, so "contains `кв N` implies returns N" is false
as stated. -/
theorem c6_counterexample :
    hasSub "кв 5 кв 7".data "кв 7".data = true ∧
    detect_apartment "кв 5 кв 7" none = some 5 ∧ (5 : Nat) ≠ 7 :=
  ⟨by decide, by decide, by decide⟩

/-- **C6 (amended).**  For a description `pre ++ "кв " ++ ds ++ post`
whose occurrence of `"кв N"` (N = the 1–3 digit group `ds`) is the first
match of the description cascade — `pre` lowers to no `к` and holds no
semicolon, `post` holds no semicolon and does not extend the digit group —
the extractor (with no sender info) returns N. -/
theorem c6_kv_number_first_match (pre ds post : List Char)
    (hds_ne : ds ≠ [])
    (hds_len : ds.length ≤ 3)
    (hds_dig : ∀ c ∈ ds, isDigitB c = true)
    (hpre_kv : ∀ c ∈ pre, pyLowerChar c ≠ 'к')
    (hpre_semi : ∀ c ∈ pre, c ≠ ';')
    (hpost_semi : ∀ c ∈ post, c ≠ ';')
    (hpost_dig : ∀ c ∈ post.take 1, isDigitB c = false) :
    detect_apartment ⟨pre ++ 'к' :: 'в' :: ' ' :: (ds ++ post)⟩ none =
      some (digitsToNat ds) := by
  have hldig : ds.map pyLowerChar = ds :=
    (List.map_congr_left
      (fun c hc => pyLowerChar_digit c (hds_dig c hc))).trans
      (List.map_id ds)
  have hlower : pyLower (pre ++ 'к' :: 'в' :: ' ' :: (ds ++ post)) =
      pyLower pre ++ ('к' :: 'в' :: ' ' :: ds) ++ pyLower post := by
    rw [pyLower, List.map_append, List.map_cons, List.map_cons,
      List.map_cons, List.map_append]
    rw [show pyLowerChar 'к' = 'к' from by decide,
      show pyLowerChar 'в' = 'в' from by decide,
      show pyLowerChar ' ' = ' ' from by decide, hldig]
    simp [pyLower, List.append_assoc]
  obtain ⟨d, ds', hds_rev⟩ : ∃ d ds', ds.reverse = d :: ds' := by
    cases hr : ds.reverse with
    | nil => exact absurd (List.reverse_eq_nil_iff.mp hr) hds_ne
    | cons d ds' => exact ⟨d, ds', rfl⟩
  have hd_dig : isDigitB d = true := by
    have hmem : d ∈ ds.reverse := by
      rw [hds_rev]
      exact List.mem_cons_self _ _
    exact hds_dig d (List.mem_reverse.mp hmem)
  have hmid_rev : ('к' :: 'в' :: ' ' :: ds).reverse =
      d :: (ds' ++ [' ', 'в', 'к']) := by
    simp [hds_rev]
  have hstrip : pyStrip (pyLower pre ++ ('к' :: 'в' :: ' ' :: ds) ++
      pyLower post) =
      (pyLower pre).dropWhile isSpaceB ++ ('к' :: 'в' :: ' ' :: ds) ++
        ((pyLower post).reverse.dropWhile isSpaceB).reverse :=
    pyStrip_structure (pyLower pre) ('к' :: 'в' :: ' ' :: ds)
      (pyLower post) 'к' ('в' :: ' ' :: ds) rfl (by decide)
      d (ds' ++ [' ', 'в', 'к']) hmid_rev
      (isSpaceB_eq_false_of_digit d hd_dig)
  have hA'_kv : ∀ c ∈ (pyLower pre).dropWhile isSpaceB, c ≠ 'к' := by
    intro c hc
    have hcA : c ∈ pyLower pre :=
      (List.dropWhile_suffix isSpaceB).subset hc
    rw [pyLower, List.mem_map] at hcA
    rcases hcA with ⟨c0, hc0, rfl⟩
    exact hpre_kv c0 hc0
  have hA'_semi : ∀ c ∈ (pyLower pre).dropWhile isSpaceB, c ≠ ';' := by
    intro c hc
    have hcA : c ∈ pyLower pre :=
      (List.dropWhile_suffix isSpaceB).subset hc
    rw [pyLower, List.mem_map] at hcA
    rcases hcA with ⟨c0, hc0, rfl⟩
    exact pyLowerChar_ne_semi c0 (hpre_semi c0 hc0)
  have hC'_semi : ∀ c ∈ ((pyLower post).reverse.dropWhile
      isSpaceB).reverse, c ≠ ';' := by
    intro c hc
    rw [List.mem_reverse] at hc
    have hcC : c ∈ (pyLower post).reverse :=
      (List.dropWhile_suffix isSpaceB).subset hc
    rw [List.mem_reverse, pyLower, List.mem_map] at hcC
    rcases hcC with ⟨c0, hc0, rfl⟩
    exact pyLowerChar_ne_semi c0 (hpost_semi c0 hc0)
  have hC'_pre : ((pyLower post).reverse.dropWhile isSpaceB).reverse <+:
      pyLower post := by
    have hsuf := List.dropWhile_suffix (l := (pyLower post).reverse)
      isSpaceB
    have := List.reverse_prefix.mpr hsuf
    rwa [List.reverse_reverse] at this
  have hC'_dig : ∀ c ∈ (((pyLower post).reverse.dropWhile
      isSpaceB).reverse).take 1, isDigitB c = false := by
    intro c hc
    have hcC : c ∈ (pyLower post).take 1 :=
      take_one_of_prefix _ _ hC'_pre c hc
    rw [pyLower, ← List.map_take, List.mem_map] at hcC
    rcases hcC with ⟨c0, hc0, rfl⟩
    rw [isDigitB_pyLowerChar]
    exact hpost_dig c0 hc0
  have hsemi : searchPat semiMatchAt
      ((pyLower pre).dropWhile isSpaceB ++ ('к' :: 'в' :: ' ' :: ds) ++
        ((pyLower post).reverse.dropWhile isSpaceB).reverse) = none := by
    apply searchPat_semi_none
    intro c hc
    simp only [List.mem_append, List.mem_cons] at hc
    rcases hc with (hc | (rfl | rfl | rfl | hc)) | hc
    · exact hA'_semi c hc
    · decide
    · decide
    · decide
    · exact digit_ne_semi c (hds_dig c hc)
    · exact hC'_semi c hc
  have hkv : searchPat (kvMatchAt clsKvDesc)
      ((pyLower pre).dropWhile isSpaceB ++ ('к' :: 'в' :: ' ' :: ds) ++
        ((pyLower post).reverse.dropWhile isSpaceB).reverse) =
      some (digitsToNat ds) := by
    rw [List.append_assoc,
      searchPat_kv_append clsKvDesc _ _ hA'_kv]
    obtain ⟨d0, ds0, rfl⟩ : ∃ d0 ds0, ds = d0 :: ds0 := by
      cases ds with
      | nil => exact absurd rfl hds_ne
      | cons d0 ds0 => exact ⟨d0, ds0, rfl⟩
    have hdrop : (' ' :: d0 :: (ds0 ++
        ((pyLower post).reverse.dropWhile isSpaceB).reverse)).dropWhile
          clsKvDesc =
        d0 :: (ds0 ++
          ((pyLower post).reverse.dropWhile isSpaceB).reverse) := by
      rw [List.dropWhile_cons, List.dropWhile_cons,
        clsKvDesc_eq_false_of_digit d0
          (hds_dig d0 (List.mem_cons_self _ _)),
        show clsKvDesc ' ' = true from by decide]
      simp
    have htake : (d0 :: (ds0 ++
        ((pyLower post).reverse.dropWhile isSpaceB).reverse)).takeWhile
          isDigitB = d0 :: ds0 := by
      have h := takeWhile_append_of_head_false isDigitB (d0 :: ds0)
        ((pyLower post).reverse.dropWhile isSpaceB).reverse
        hds_dig hC'_dig
      simpa using h
    have hmatch : kvMatchAt clsKvDesc ('к' :: 'в' :: ' ' :: d0 ::
        (ds0 ++ ((pyLower post).reverse.dropWhile isSpaceB).reverse)) =
        some (digitsToNat (d0 :: ds0)) := by
      rw [kvMatchAt, if_pos ⟨rfl, rfl⟩]
      simp only [hdrop, htake, List.take_of_length_le hds_len,
        if_neg hds_ne]
    have hshape : ('к' :: 'в' :: ' ' :: (d0 :: ds0)) ++
        ((pyLower post).reverse.dropWhile isSpaceB).reverse =
        'к' :: 'в' :: ' ' :: d0 ::
          (ds0 ++ ((pyLower post).reverse.dropWhile isSpaceB).reverse) := by
      simp
    rw [hshape, searchPat, hmatch]
  rw [detect_apartment]
  have hne : (pre ++ 'к' :: 'в' :: ' ' :: (ds ++ post)) ≠ [] := by
    simp
  simp only [hne, if_neg, ite_false, hlower, hstrip, hsemi, hkv]

/-- Witness for C6 (amended): the description
`"платеж кв 63 за январь"` yields 63. -/
theorem c6_kv_number_first_match_witness :
    detect_apartment "платеж кв 63 за январь" none = some 63 := by
  have h := c6_kv_number_first_match "платеж ".data ['6', '3']
    " за январь".data (by decide) (by decide) (by decide) (by decide)
    (by decide) (by decide) (by decide)
  have heq : (⟨"платеж ".data ++ 'к' :: 'в' :: ' ' ::
      (['6', '3'] ++ " за январь".data)⟩ : String) =
      "платеж кв 63 за январь" := by decide
  rw [heq] at h
  rw [h]
  decide
